import Mathlib

/-!
# Verification of the agent-triage core (jarvis repository)

Shallow embedding of `src/agents/agent-triage/src/agent_triage/main.py`
(`_process_project_emails`) and
`src/agents/agent-triage/src/agent_triage/llm_client.py`
(`LLMClient.generate`, `ChatGPTBackend`, `CopilotBackend`), together with
models of the third-party `pybreaker` circuit breaker and `tenacity` retry
layers (those libraries are not part of the repository's sources; they are
modelled from the specification, which describes their configured behavior).

External collaborators (IMAP, S3/MinIO, SMTP, the LLM HTTP endpoint and the
Copilot CLI session) are represented by oracles: pure values or functions
supplied as parameters that say what each collaborator call would return or
whether it would raise.  Python exceptions are represented with
`Except Unit`; Python string truthiness (where both `None` and `""` are
falsy) is made explicit via `otruthy`.
-/

namespace AgentTriage

/-- Python truthiness of an `Optional[str]` value: `None` and `""` are falsy. -/
def otruthy : Option String → Bool
  | none => false
  | some s => s != ""

/-- The fields of the `email_client.AgentEmail` dataclass that
`_process_project_emails` reads.  `extensionRules` is `Optional[str]` in the
source.  Note the source dataclass has NO `sender` attribute, although
main.py line 153 reads `mail.sender` — see `stepEmail`. -/
structure AgentEmail where
  uid : String
  projectName : String
  subject : String
  body : String
  extensionRules : Option String
  deriving DecidableEq, Repr

/-- Observable collaborator invocations performed by
`_process_project_emails`, in order.
* `fold uid existing result`: one `generator.generate` call for the email
  `uid`, receiving `existing` as `existing_epic`; `result` is `some` of the
  returned epic, or `none` when the call raised.
* `writeRules r`: the single `s3.write_extension_rules` call.
* `writeEpic e`: the single `s3.write_epic` call (the commit).
* `markSeen uid`: one `email_client.mark_as_seen` call (the acknowledgment).
There is no reply effect: `smtp_client.send_reply` is unreachable from the
loop, because `mail.sender` raises before it — see `stepEmail`. -/
inductive Effect
  | fold (uid : String) (existing : Option String) (result : Option String)
  | writeRules (rules : String)
  | writeEpic (content : String)
  | markSeen (uid : String)
  deriving DecidableEq, Repr

/-- Oracle for `generator.generate`: given the email, the current
`accumulated_epic` and the resolved `extension_rules`, either the returned
epic string or an exception. -/
abbrev GenOracle := AgentEmail → Option String → Option String → Except Unit String

/-- Oracle for `smtp_client.send_reply`: given the email and the attached
epic, success or an exception.  The orchestrator receives the SMTP client,
but no call to it is reachable (see `stepEmail`); the parameter is kept to
mirror the source signature of `_process_project_emails`. -/
abbrev SmtpOracle := AgentEmail → String → Except Unit Unit

/-- Function main._resolve_extension_rules: email attachment first, then rules
accumulated earlier in this run, then the copy stored in S3 (`stored` is the
value `s3.read_extension_rules` would return, modelled as pure). -/
def resolveExtensionRules (mail : AgentEmail) (stored pending : Option String) :
    Option String :=
  if otruthy mail.extensionRules then mail.extensionRules
  else if otruthy pending then pending
  else stored

/-- Mutable loop state of `_process_project_emails`: `accumulated_epic`,
`accumulated_extension_rules`, `processed_uids`, plus the trace of
collaborator invocations so far. -/
structure LoopState where
  accEpic : Option String
  accRules : Option String
  uids : List String
  fx : List Effect
  deriving Repr

/-- One iteration of the `for mail in mails` loop of
`_process_project_emails` (main.py lines 121-195): resolve extension rules,
remember a fresh attachment, fold the email through the generator; on
generator failure skip the email (its uid is not recorded) and continue.
On success the uid is appended (line 150) and then the reply block (lines
152-184) runs: its very first expression `mail.sender` raises
`AttributeError`, because the source `AgentEmail` dataclass defines no
`sender` attribute; the exception is caught by the OUTER handler at line
186 — after `accumulated_epic` was reassigned and the uid appended — and
the loop continues.  So `smtp_client.send_reply` is never invoked, the
inner reply-failure handler (lines 176-184) is dead code, and the net
state change of a successful fold is exactly the fold itself. -/
def stepEmail (gen : GenOracle) (_smtp : SmtpOracle) (stored : Option String)
    (st : LoopState) (mail : AgentEmail) : LoopState :=
  let rules := resolveExtensionRules mail stored st.accRules
  let accRules' := if otruthy mail.extensionRules then mail.extensionRules else st.accRules
  match gen mail st.accEpic rules with
  | .error _ =>
      { st with accRules := accRules',
                fx := st.fx ++ [.fold mail.uid st.accEpic none] }
  | .ok newEpic =>
      { accEpic := some newEpic, accRules := accRules',
        uids := st.uids ++ [mail.uid],
        fx := st.fx ++ [.fold mail.uid st.accEpic (some newEpic)] }

/-- The whole folding loop, started from the baseline epic loaded from S3. -/
def runLoop (gen : GenOracle) (smtp : SmtpOracle) (stored baseline : Option String)
    (mails : List AgentEmail) : LoopState :=
  mails.foldl (stepEmail gen smtp stored) ⟨baseline, none, [], []⟩

/-- Step 5 of `_process_project_emails`: acknowledge every processed uid and
return their count. -/
def ackPhase (fx : List Effect) (st : LoopState) : List Effect × Except Unit Nat :=
  (fx ++ st.uids.map Effect.markSeen, Except.ok st.uids.length)

/-- Step 4 of `_process_project_emails`: `if accumulated_epic:` write the
epic once (`writeEpicRes` says whether `s3.write_epic` returns a key or
raises; a raise propagates out of the function). -/
def epicPhase (fx : List Effect) (st : LoopState) (writeEpicRes : Except Unit String) :
    List Effect × Except Unit Nat :=
  if otruthy st.accEpic then
    match writeEpicRes with
    | .error _ => (fx ++ [.writeEpic (st.accEpic.getD "")], Except.error ())
    | .ok _ => ackPhase (fx ++ [.writeEpic (st.accEpic.getD "")]) st
  else ackPhase fx st

/-- Step 3 of `_process_project_emails`: `if accumulated_extension_rules:`
persist them (a raise propagates), then continue with the epic write. -/
def rulesPhase (st : LoopState) (writeRulesRes : Except Unit Unit)
    (writeEpicRes : Except Unit String) : List Effect × Except Unit Nat :=
  if otruthy st.accRules then
    match writeRulesRes with
    | .error _ => (st.fx ++ [.writeRules (st.accRules.getD "")], Except.error ())
    | .ok _ => epicPhase (st.fx ++ [.writeRules (st.accRules.getD "")]) st writeEpicRes
  else epicPhase st.fx st writeEpicRes

/-- Function main._process_project_emails.  `bucketRes` is the outcome of
`s3.ensure_bucket` (a raise aborts the partition immediately);
`stored`/`baseline` are what `s3.read_extension_rules`/`s3.read_latest_epic`
return (modelled as pure); an empty `mails` list raises (`mails[0]` is an
`IndexError` in the source); if no email succeeded the function returns 0
without touching S3; otherwise rules write, epic write and acknowledgments
run in order. -/
def processProjectEmails (bucketRes : Except Unit String) (gen : GenOracle)
    (smtp : SmtpOracle) (stored baseline : Option String)
    (writeRulesRes : Except Unit Unit) (writeEpicRes : Except Unit String)
    (mails : List AgentEmail) : List Effect × Except Unit Nat :=
  match bucketRes with
  | .error _ => ([], Except.error ())
  | .ok _ =>
    match mails with
    | [] => ([], Except.error ())
    | _ :: _ =>
      let st := runLoop gen smtp stored baseline mails
      if st.uids.isEmpty then (st.fx, Except.ok 0)
      else rulesPhase st writeRulesRes writeEpicRes

/-- Is this effect the S3 epic commit? -/
def isWriteEpic : Effect → Bool
  | .writeEpic _ => true
  | _ => false

/-- Is this effect an acknowledgment? -/
def isMarkSeen : Effect → Bool
  | .markSeen _ => true
  | _ => false

/-- Number of `write_epic` (commit) invocations in a trace. -/
def countWriteEpic (fx : List Effect) : Nat := fx.countP isWriteEpic

/-- Number of `mark_as_seen` (acknowledgment) invocations in a trace. -/
def countMarkSeen (fx : List Effect) : Nat := fx.countP isMarkSeen

/-- The uids acknowledged in a trace, in order. -/
def ackUids : List Effect → List String
  | [] => []
  | .markSeen u :: rest => u :: ackUids rest
  | _ :: rest => ackUids rest

/-- The fold (generator) invocations of a trace: uid, the `existing_epic`
argument, and the result (`none` when the generator raised). -/
def foldTrace : List Effect → List (String × Option String × Option String)
  | [] => []
  | .fold u ex r :: rest => (u, ex, r) :: foldTrace rest
  | _ :: rest => foldTrace rest

/-- Uids of the successfully folded emails of a fold trace, in order. -/
def successUids (ft : List (String × Option String × Option String)) : List String :=
  (ft.filter (fun t => t.2.2.isSome)).map (·.1)

/-! ## The LLM facade (`llm_client.LLMClient.generate`) -/

/-- Outcome one `backend.generate(...)` call would have, as observed by the
facade: a returned text, a raised `pybreaker.CircuitBreakerError`, or any
other raised exception. -/
inductive BackendOutcome
  | success (text : String)
  | circuitOpen
  | failure
  deriving DecidableEq, Repr

/-- Did a backend outcome return text? -/
def BackendOutcome.isSuccess : BackendOutcome → Bool
  | .success _ => true
  | _ => false

/-- What `LLMClient.generate` does: return a text (second flag: via the
Copilot fallback), or raise one of the three `RuntimeError`s of
llm_client.py lines 321-334. -/
inductive FacadeResult
  | ok (text : String) (viaCopilot : Bool)
  | allUnavailableCircuitOpen
  | allBackendsFailed
  | notConfigured
  deriving DecidableEq, Repr

/-- Is this facade result one of the two all-backends-unavailable errors
("Both LLM backends are unavailable ..." / "Both LLM backends failed ...")? -/
def FacadeResult.isAllUnavailable : FacadeResult → Bool
  | .allUnavailableCircuitOpen => true
  | .allBackendsFailed => true
  | _ => false

/-- Facade method LLMClient.generate (llm_client.py lines 289-334), as a function of the
two backends' configuration flags and the outcome each backend call would
have.  The second component records whether `self._copilot.generate` was
invoked. -/
def llmGenerate (cgConf : Bool) (cgOut : BackendOutcome)
    (cpConf : Bool) (cpOut : BackendOutcome) : FacadeResult × Bool :=
  let fallback : FacadeResult × Bool :=
    if cpConf then
      match cpOut with
      | .success t => (.ok t true, true)
      | .circuitOpen => (.allUnavailableCircuitOpen, true)
      | .failure => (.allBackendsFailed, true)
    else (.notConfigured, false)
  if cgConf then
    match cgOut with
    | .success t => (.ok t false, false)
    | .circuitOpen => fallback
    | .failure => fallback
  else fallback

/-! ## The circuit breaker (`pybreaker.CircuitBreaker`)

Modelled from the spec: `pybreaker` is a third-party dependency whose source
is not part of this repository; its state machine is taken from spec §3/§4.2
(CLOSED/OPEN/HALF_OPEN, `fail_counter`, `fail_max`, `reset_timeout`,
`opened_at`).  Time is a `Nat` of elapsed units. -/

/-- Modelled from the spec: circuit status `CLOSED`/`OPEN`/`HALF_OPEN`. -/
inductive CBStatus
  | closed
  | opened
  | halfOpen
  deriving DecidableEq, Repr

/-- Modelled from the spec: the state owned by one `pybreaker.CircuitBreaker`
(`fail_max` and `reset_timeout` come from `Settings.CB_FAIL_MAX` and
`Settings.CB_RESET_TIMEOUT`); `openedAt` is meaningful while `opened`. -/
structure CBState where
  failMax : Nat
  resetTimeout : Nat
  failCounter : Nat
  status : CBStatus
  openedAt : Nat
  deriving DecidableEq, Repr

/-- Final outcome of the wrapped callable (the whole tenacity-retried
sequence), when the breaker lets it run. -/
inductive CallOutcome
  | success (text : String)
  | failure
  deriving DecidableEq, Repr

/-- What `CircuitBreaker.call` does: return the text, raise
`CircuitBreakerError`, re-raise the callable's exception, or (in the
composed backend model) raise the configuration `RuntimeError` before the
breaker is ever reached. -/
inductive CallResult
  | ok (text : String)
  | circuitOpenError
  | failed
  | configError
  deriving DecidableEq, Repr

/-- Modelled from the spec: `CircuitBreaker.call` at time `now`, where `out`
is the outcome the wrapped callable would have if invoked.  Returns the
result, the next breaker state, and whether the callable was invoked.
While `OPEN` before `reset_timeout` elapses the call is rejected without
invocation; at or after the timeout the call is a HALF_OPEN probe; while
`CLOSED`, a success resets `fail_counter` and a failure increments it,
opening the circuit when it reaches `fail_max`. -/
def cbCall (st : CBState) (now : Nat) (out : CallOutcome) :
    CallResult × CBState × Bool :=
  match st.status with
  | .opened =>
    if now < st.openedAt + st.resetTimeout then
      (.circuitOpenError, st, false)
    else
      match out with
      | .success t => (.ok t, { st with status := .closed, failCounter := 0 }, true)
      | .failure =>
          (.failed, { st with status := .opened, failCounter := st.failCounter + 1,
                              openedAt := now }, true)
  | .halfOpen =>
      match out with
      | .success t => (.ok t, { st with status := .closed, failCounter := 0 }, true)
      | .failure =>
          (.failed, { st with status := .opened, failCounter := st.failCounter + 1,
                              openedAt := now }, true)
  | .closed =>
      match out with
      | .success t => (.ok t, { st with failCounter := 0 }, true)
      | .failure =>
          let c := st.failCounter + 1
          if st.failMax ≤ c then
            (.failed, { st with failCounter := c, status := .opened, openedAt := now }, true)
          else
            (.failed, { st with failCounter := c }, true)

/-- Iterate `cbCall` over a list of timed outcomes, keeping the state. -/
def cbCallSeq (st : CBState) (calls : List (Nat × CallOutcome)) : CBState :=
  calls.foldl (fun s c => (cbCall s c.1 c.2).2.1) st

/-! ## The retry layer (`tenacity.retry` as configured in llm_client.py)

Modelled from the spec: `tenacity` is a third-party dependency whose source
is not part of this repository; the bounded-attempt loop with
`reraise=True` and the exponential wait are taken from spec §4.1.  The
exception filters (`retry_if_not_exception_type`) are from the source. -/

/-- The exception kinds the backends raise through the retry layer.
`valueError` is a 4xx (`ValueError` in `_http_call`), `ioError` a 5xx
(`IOError`), `timeoutError` a network timeout, `circuitBreakerError` a
rejected call from a breaker, `runtimeError` any other `RuntimeError`
(e.g. the Copilot empty-response error). -/
inductive LLMError
  | valueError
  | ioError
  | timeoutError
  | circuitBreakerError
  | runtimeError
  deriving DecidableEq, Repr

/-- Filter retry_if_not_exception_type((CircuitBreakerError, ValueError)) of
`ChatGPTBackend.generate` (llm_client.py lines 127-129). -/
def chatgptRetryable : LLMError → Bool
  | .circuitBreakerError => false
  | .valueError => false
  | _ => true

/-- Filter retry_if_not_exception_type(CircuitBreakerError) of
`CopilotBackend.generate` (llm_client.py line 212). -/
def copilotRetryable : LLMError → Bool
  | .circuitBreakerError => false
  | _ => true

/-- Modelled from the spec: the tenacity attempt loop.  `outcomes i` is what
the `i`-th underlying call (0-based) would return or raise; the first
argument is the remaining attempt budget.  Returns the number of attempts
issued and the final outcome (`reraise=True`: the last exception is
re-raised unchanged). -/
def retryExec (retryable : LLMError → Bool) (outcomes : Nat → Except LLMError String) :
    Nat → Nat → Nat × Except LLMError String
  | 0, i => (i, Except.error LLMError.runtimeError)
  | fuel + 1, i =>
    match outcomes i with
    | .ok t => (i + 1, .ok t)
    | .error e =>
      if retryable e && fuel != 0 then retryExec retryable outcomes fuel (i + 1)
      else (i + 1, .error e)

/-- The whole retry-wrapped callable `_call_with_retry`, with
`stop_after_attempt maxAttempts` (= `Settings.CB_RETRY_ATTEMPTS`). -/
def retryGenerate (maxAttempts : Nat) (retryable : LLMError → Bool)
    (outcomes : Nat → Except LLMError String) : Nat × Except LLMError String :=
  retryExec retryable outcomes maxAttempts 0

/-- Modelled from the spec: `tenacity.wait_exponential(min := wmin,
max := wmax)` with the default multiplier 1 — the wait after the `k`-th
failed attempt (`k ≥ 1`) is `2 ^ k`, clamped into `[wmin, wmax]`. -/
def waitExp (wmin wmax k : Nat) : Nat := max wmin (min (2 ^ k) wmax)

/-- A backend's `generate` (llm_client.py lines 114-136 / 201-220): the
configuration check happens first and raises before the retry layer and the
breaker are reached; otherwise the breaker wraps the whole retried sequence.
Returns the result, the next breaker state, and the number of underlying
call attempts issued. -/
def backendGenerate (configured : Bool) (retryable : LLMError → Bool)
    (maxAttempts : Nat) (st : CBState) (now : Nat)
    (outcomes : Nat → Except LLMError String) : CallResult × CBState × Nat :=
  if configured then
    let r := retryGenerate maxAttempts retryable outcomes
    let out : CallOutcome := match r.2 with
      | .ok t => .success t
      | .error _ => .failure
    let c := cbCall st now out
    (c.1, c.2.1, if c.2.2 then r.1 else 0)
  else (.configError, st, 0)

/-! ## The raw backend calls -/

/-- Method ChatGPTBackend._http_call (llm_client.py lines 138-177), as a function
of the HTTP status code and the extracted message content of the JSON body:
status ≥ 500 raises `IOError` (transient), status in [400, 500) raises
`ValueError` (permanent), and otherwise the content is returned — with no
emptiness check. -/
def chatgptHttpCall (status : Nat) (content : String) : Except LLMError String :=
  if 500 ≤ status then .error .ioError
  else if 400 ≤ status then .error .valueError
  else .ok content

/-- Response handling of the function _run_copilot_session (llm_client.py
lines 260-268): `responseText` is the content extracted from the response
event, `none` when the event is absent or carries no content (the source
expression `getattr(..., "") or ""` collapses both to `""`); an empty text
raises `RuntimeError`. -/
def copilotSessionResult (responseText : Option String) : Except LLMError String :=
  let t := match responseText with
    | none => ""
    | some c => c
  if t = "" then .error .runtimeError else .ok t

/-- Does an `Except` result hold the empty string as a success value? -/
def isEmptyOk : Except LLMError String → Bool
  | .ok t => t == ""
  | .error _ => false

/-! ## Derived notions used to state the claims -/

/-- Result of one generator call as an `Option` (`none` means it raised),
given the current accumulated epic and extension rules. -/
def genRes (gen : GenOracle) (stored : Option String)
    (accEpic accRules : Option String) (m : AgentEmail) : Option String :=
  match gen m accEpic (resolveExtensionRules m stored accRules) with
  | .ok t => some t
  | .error _ => none

/-- A fold trace is correctly chained from baseline `b`: the first fold
receives `b` as the existing epic, and each subsequent fold receives the
result of the most recent successful fold (or `b` while none succeeded). -/
def chainFrom (b : Option String) : List (String × Option String × Option String) → Prop
  | [] => True
  | (_, ex, r) :: rest =>
      ex = b ∧ chainFrom (match r with | some v => some v | none => b) rest

/-- The accumulated epic after a fold trace chained from baseline `b`. -/
def chainEnd (b : Option String) : List (String × Option String × Option String) → Option String
  | [] => b
  | (_, _, r) :: rest => chainEnd (match r with | some v => some v | none => b) rest

/-- No acknowledgment occurs before the first commit in the trace. -/
def acksOnlyAfterCommit : List Effect → Bool
  | [] => true
  | .markSeen _ :: _ => false
  | .writeEpic _ :: _ => true
  | _ :: rest => acksOnlyAfterCommit rest

/-- Did the partition run complete without raising? -/
def exceptIsOk : Except Unit Nat → Bool
  | .ok _ => true
  | .error _ => false

/-- The property claim C1 asserts of the trace of one partition run with
`m` successfully folded emails: the commit is invoked exactly once when
`m ≥ 1` and zero times when `m = 0`, and the acknowledgment is invoked
exactly `m` times, once per successfully folded email and never for a
failed one. -/
def specClaimC1 (fx : List Effect) (m : Nat) : Prop :=
  countWriteEpic fx = (if m = 0 then 0 else 1) ∧
  countMarkSeen fx = m ∧
  ackUids fx = successUids (foldTrace fx)

/-- The property claim C2 asserts of the trace and result of one partition
run: an email is acknowledged only strictly after a commit that returned
successfully in the same run — so either nothing is acknowledged, or a
commit precedes every acknowledgment and the run completed normally. -/
def specClaimC2 (fx : List Effect) (res : Except Unit Nat) : Prop :=
  countMarkSeen fx = 0 ∨
  (acksOnlyAfterCommit fx = true ∧ exceptIsOk res = true)

/-- The property claim C3 asserts of one facade call with the given backend
configurations and would-be outcomes: the secondary is attempted iff the
primary is unconfigured, raises, or is circuit-open; an
all-backends-unavailable error only when the secondary was attempted and
did not succeed; a not-configured error only when neither backend is
configured. -/
def specClaimC3At (cgConf : Bool) (cgOut : BackendOutcome)
    (cpConf : Bool) (cpOut : BackendOutcome) : Prop :=
  ((llmGenerate cgConf cgOut cpConf cpOut).2 = true ↔
      (cgConf = false ∨ cgOut.isSuccess = false)) ∧
  ((llmGenerate cgConf cgOut cpConf cpOut).1.isAllUnavailable = true →
      (llmGenerate cgConf cgOut cpConf cpOut).2 = true ∧ cpOut.isSuccess = false) ∧
  ((llmGenerate cgConf cgOut cpConf cpOut).1 = FacadeResult.notConfigured →
      cgConf = false ∧ cpConf = false)

/-- The property claim C8 asserts of one unconfigured backend call: it fails
immediately with the configuration error, the retry layer issues no attempt,
and yet the breaker records the call as one failed call (the failure counter
grows by one). -/
def specClaimC8At (retryable : LLMError → Bool) (maxAttempts : Nat) (st : CBState)
    (now : Nat) (outcomes : Nat → Except LLMError String) : Prop :=
  (backendGenerate false retryable maxAttempts st now outcomes).1 = CallResult.configError ∧
  (backendGenerate false retryable maxAttempts st now outcomes).2.2 = 0 ∧
  (backendGenerate false retryable maxAttempts st now outcomes).2.1.failCounter
    = st.failCounter + 1

/-! ## Helper lemmas about traces -/

theorem countWriteEpic_append (a b : List Effect) :
    countWriteEpic (a ++ b) = countWriteEpic a + countWriteEpic b := by
  simp [countWriteEpic, List.countP_append]

theorem countMarkSeen_append (a b : List Effect) :
    countMarkSeen (a ++ b) = countMarkSeen a + countMarkSeen b := by
  simp [countMarkSeen, List.countP_append]

theorem ackUids_append (a b : List Effect) :
    ackUids (a ++ b) = ackUids a ++ ackUids b := by
  induction a with
  | nil => rfl
  | cons e rest ih => cases e <;> simp [ackUids, ih]

theorem foldTrace_append (a b : List Effect) :
    foldTrace (a ++ b) = foldTrace a ++ foldTrace b := by
  induction a with
  | nil => rfl
  | cons e rest ih => cases e <;> simp [foldTrace, ih]

theorem ackUids_map_markSeen (l : List String) :
    ackUids (l.map Effect.markSeen) = l := by
  induction l with
  | nil => rfl
  | cons u rest ih => simp [ackUids, ih]

theorem countMarkSeen_map_markSeen (l : List String) :
    countMarkSeen (l.map Effect.markSeen) = l.length := by
  induction l with
  | nil => rfl
  | cons u rest ih => simp [countMarkSeen, isMarkSeen, List.countP_cons] at ih ⊢

theorem countWriteEpic_map_markSeen (l : List String) :
    countWriteEpic (l.map Effect.markSeen) = 0 := by
  induction l with
  | nil => rfl
  | cons u rest ih => simp [countWriteEpic, isWriteEpic, List.countP_cons] at ih ⊢

theorem acksOnlyAfterCommit_append (a : List Effect) (e : String) (rest : List Effect)
    (h : countMarkSeen a = 0) :
    acksOnlyAfterCommit (a ++ Effect.writeEpic e :: rest) = true := by
  induction a with
  | nil => rfl
  | cons x xs ih =>
    cases x with
    | markSeen u => simp [countMarkSeen, isMarkSeen, List.countP_cons] at h
    | writeEpic c => rfl
    | fold u ex r =>
      simp only [countMarkSeen, List.countP_cons, isMarkSeen] at h
      exact ih (by simpa [countMarkSeen] using h)
    | writeRules r =>
      simp only [countMarkSeen, List.countP_cons, isMarkSeen] at h
      exact ih (by simpa [countMarkSeen] using h)

/-! ## Characterization of the folding loop -/

theorem stepEmail_char (g : GenOracle) (s : SmtpOracle) (d : Option String)
    (st : LoopState) (m : AgentEmail) :
    (stepEmail g s d st m).fx
      = st.fx ++ [Effect.fold m.uid st.accEpic (genRes g d st.accEpic st.accRules m)] ∧
    (stepEmail g s d st m).accEpic
      = (match genRes g d st.accEpic st.accRules m with
         | some v => some v
         | none => st.accEpic) ∧
    (stepEmail g s d st m).uids
      = st.uids ++ (match genRes g d st.accEpic st.accRules m with
                    | some _ => [m.uid]
                    | none => []) ∧
    (stepEmail g s d st m).accRules
      = (if otruthy m.extensionRules then m.extensionRules else st.accRules) := by
  unfold stepEmail genRes
  cases hg : g m st.accEpic (resolveExtensionRules m d st.accRules) with
  | error err => simp [hg]
  | ok t => simp [hg]

theorem runLoop_char (g : GenOracle) (s : SmtpOracle) (d : Option String) :
    ∀ (mails : List AgentEmail) (st : LoopState),
    ∃ (tail : List Effect) (ft : List (String × Option String × Option String)),
      (mails.foldl (stepEmail g s d) st).fx = st.fx ++ tail ∧
      foldTrace tail = ft ∧
      countMarkSeen tail = 0 ∧
      countWriteEpic tail = 0 ∧
      ackUids tail = [] ∧
      ft.map (fun x => x.1) = mails.map AgentEmail.uid ∧
      chainFrom st.accEpic ft ∧
      (mails.foldl (stepEmail g s d) st).accEpic = chainEnd st.accEpic ft ∧
      (mails.foldl (stepEmail g s d) st).uids = st.uids ++ successUids ft := by
  intro mails
  induction mails with
  | nil =>
    intro st
    exact ⟨[], [], by simp [foldTrace, countMarkSeen, countWriteEpic, ackUids,
      chainFrom, chainEnd, successUids]⟩
  | cons m ms ih =>
    intro st
    obtain ⟨hfx, hacc, huids, hrules⟩ := stepEmail_char g s d st m
    obtain ⟨tail, ft, ihfx, ihft, ihms, ihwe, ihau, ihmap, ihchain, ihend, ihuids⟩ :=
      ih (stepEmail g s d st m)
    refine ⟨Effect.fold m.uid st.accEpic (genRes g d st.accEpic st.accRules m) :: tail,
      (m.uid, st.accEpic, genRes g d st.accEpic st.accRules m) :: ft,
      ?_, ?_, ?_, ?_, ?_, ?_, ?_, ?_, ?_⟩
    · rw [List.foldl_cons, ihfx, hfx]
      simp
    · simp [foldTrace, ihft]
    · have h1 : countMarkSeen
          (Effect.fold m.uid st.accEpic (genRes g d st.accEpic st.accRules m) :: tail)
          = countMarkSeen tail := by
        simp [countMarkSeen, List.countP_cons, isMarkSeen]
      rw [h1, ihms]
    · have h1 : countWriteEpic
          (Effect.fold m.uid st.accEpic (genRes g d st.accEpic st.accRules m) :: tail)
          = countWriteEpic tail := by
        simp [countWriteEpic, List.countP_cons, isWriteEpic]
      rw [h1, ihwe]
    · simp [ackUids, ihau]
    · simp [ihmap]
    · refine ⟨rfl, ?_⟩
      rw [hacc] at ihchain
      exact ihchain
    · rw [List.foldl_cons, ihend, hacc]
      rfl
    · rw [List.foldl_cons, ihuids, huids]
      cases hgr : genRes g d st.accEpic st.accRules m with
      | some v => simp [hgr, successUids, List.filter]
      | none => simp [hgr, successUids, List.filter]

/-! ## Characterization of the commit and acknowledgment phases -/

theorem epicPhase_ok (fx : List Effect) (st : LoopState) (k : String)
    (h1 : countWriteEpic fx = 0) (h2 : ackUids fx = []) :
    countWriteEpic (epicPhase fx st (Except.ok k)).1 = (if otruthy st.accEpic then 1 else 0) ∧
    ackUids (epicPhase fx st (Except.ok k)).1 = st.uids := by
  by_cases hE : otruthy st.accEpic = true
  · refine ⟨?_, ?_⟩
    · simp only [epicPhase, hE, if_true, ackPhase]
      rw [countWriteEpic_append, countWriteEpic_append, h1, countWriteEpic_map_markSeen]
      simp [countWriteEpic, List.countP_cons, isWriteEpic]
    · simp only [epicPhase, hE, if_true, ackPhase]
      rw [ackUids_append, ackUids_append, h2, ackUids_map_markSeen]
      simp [ackUids]
  · rw [Bool.not_eq_true] at hE
    refine ⟨?_, ?_⟩
    · simp only [epicPhase, hE, Bool.false_eq_true, if_false, ackPhase]
      rw [countWriteEpic_append, h1, countWriteEpic_map_markSeen]
    · simp only [epicPhase, hE, Bool.false_eq_true, if_false, ackPhase]
      rw [ackUids_append, h2, ackUids_map_markSeen]
      simp

theorem rulesPhase_ok (st : LoopState) (k : String)
    (h1 : countWriteEpic st.fx = 0) (h2 : ackUids st.fx = []) :
    countWriteEpic (rulesPhase st (Except.ok ()) (Except.ok k)).1
      = (if otruthy st.accEpic then 1 else 0) ∧
    ackUids (rulesPhase st (Except.ok ()) (Except.ok k)).1 = st.uids := by
  by_cases hr : otruthy st.accRules = true
  · have h1' : countWriteEpic (st.fx ++ [Effect.writeRules (st.accRules.getD "")]) = 0 := by
      rw [countWriteEpic_append, h1]; simp [countWriteEpic, List.countP_cons, isWriteEpic]
    have h2' : ackUids (st.fx ++ [Effect.writeRules (st.accRules.getD "")]) = [] := by
      rw [ackUids_append, h2]; simp [ackUids]
    obtain ⟨c1, c2⟩ := epicPhase_ok (st.fx ++ [Effect.writeRules (st.accRules.getD "")])
      st k h1' h2'
    exact ⟨by simpa [rulesPhase, hr] using c1, by simpa [rulesPhase, hr] using c2⟩
  · rw [Bool.not_eq_true] at hr
    obtain ⟨c1, c2⟩ := epicPhase_ok st.fx st k h1 h2
    exact ⟨by simpa [rulesPhase, hr] using c1, by simpa [rulesPhase, hr] using c2⟩

theorem epicPhase_char (fx : List Effect) (st : LoopState) (we : Except Unit String)
    (h0 : countMarkSeen fx = 0) (h1 : countWriteEpic fx = 0) :
    countWriteEpic (epicPhase fx st we).1 ≤ 1 ∧
    ((epicPhase fx st we).2 = Except.error () → countMarkSeen (epicPhase fx st we).1 = 0) ∧
    (1 ≤ countWriteEpic (epicPhase fx st we).1 →
      acksOnlyAfterCommit (epicPhase fx st we).1 = true) := by
  by_cases hE : otruthy st.accEpic = true
  · cases we with
    | error e =>
      refine ⟨?_, ?_, ?_⟩
      · simp only [epicPhase, hE, if_true]
        rw [countWriteEpic_append, h1]
        simp [countWriteEpic, List.countP_cons, isWriteEpic]
      · intro _
        simp only [epicPhase, hE, if_true]
        rw [countMarkSeen_append, h0]
        simp [countMarkSeen, List.countP_cons, isMarkSeen]
      · intro _
        simp only [epicPhase, hE, if_true]
        exact acksOnlyAfterCommit_append fx _ [] h0
    | ok k =>
      refine ⟨?_, ?_, ?_⟩
      · simp only [epicPhase, hE, if_true, ackPhase]
        rw [countWriteEpic_append, countWriteEpic_append, h1, countWriteEpic_map_markSeen]
        simp [countWriteEpic, List.countP_cons, isWriteEpic]
      · intro h
        simp only [epicPhase, hE, if_true, ackPhase] at h
        exact Except.noConfusion h
      · intro _
        simp only [epicPhase, hE, if_true, ackPhase]
        rw [List.append_assoc, List.singleton_append]
        exact acksOnlyAfterCommit_append fx _ _ h0
  · rw [Bool.not_eq_true] at hE
    refine ⟨?_, ?_, ?_⟩
    · simp only [epicPhase, hE, Bool.false_eq_true, if_false, ackPhase]
      rw [countWriteEpic_append, h1, countWriteEpic_map_markSeen]
      omega
    · intro h
      simp only [epicPhase, hE, Bool.false_eq_true, if_false, ackPhase] at h
      exact Except.noConfusion h
    · intro h
      simp only [epicPhase, hE, Bool.false_eq_true, if_false, ackPhase] at h ⊢
      rw [countWriteEpic_append, h1, countWriteEpic_map_markSeen] at h
      omega

theorem rulesPhase_char (st : LoopState) (wr : Except Unit Unit) (we : Except Unit String)
    (h0 : countMarkSeen st.fx = 0) (h1 : countWriteEpic st.fx = 0) :
    countWriteEpic (rulesPhase st wr we).1 ≤ 1 ∧
    ((rulesPhase st wr we).2 = Except.error () → countMarkSeen (rulesPhase st wr we).1 = 0) ∧
    (1 ≤ countWriteEpic (rulesPhase st wr we).1 →
      acksOnlyAfterCommit (rulesPhase st wr we).1 = true) := by
  by_cases hr : otruthy st.accRules = true
  · cases wr with
    | error e =>
      refine ⟨?_, ?_, ?_⟩
      · simp only [rulesPhase, hr, if_true]
        rw [countWriteEpic_append, h1]
        simp [countWriteEpic, List.countP_cons, isWriteEpic]
      · intro _
        simp only [rulesPhase, hr, if_true]
        rw [countMarkSeen_append, h0]
        simp [countMarkSeen, List.countP_cons, isMarkSeen]
      · intro h
        simp only [rulesPhase, hr, if_true] at h
        rw [countWriteEpic_append, h1] at h
        simp [countWriteEpic, List.countP_cons, isWriteEpic] at h
    | ok u =>
      have h0' : countMarkSeen (st.fx ++ [Effect.writeRules (st.accRules.getD "")]) = 0 := by
        rw [countMarkSeen_append, h0]; simp [countMarkSeen, List.countP_cons, isMarkSeen]
      have h1' : countWriteEpic (st.fx ++ [Effect.writeRules (st.accRules.getD "")]) = 0 := by
        rw [countWriteEpic_append, h1]; simp [countWriteEpic, List.countP_cons, isWriteEpic]
      obtain ⟨c1, c2, c3⟩ := epicPhase_char (st.fx ++ [Effect.writeRules (st.accRules.getD "")])
        st we h0' h1'
      exact ⟨by simpa [rulesPhase, hr] using c1, by simpa [rulesPhase, hr] using c2,
        by simpa [rulesPhase, hr] using c3⟩
  · rw [Bool.not_eq_true] at hr
    obtain ⟨c1, c2, c3⟩ := epicPhase_char st.fx st we h0 h1
    exact ⟨by simpa [rulesPhase, hr] using c1, by simpa [rulesPhase, hr] using c2,
      by simpa [rulesPhase, hr] using c3⟩

theorem process_cons_eq (b : String) (g : GenOracle) (s : SmtpOracle)
    (d bl : Option String) (wr : Except Unit Unit) (we : Except Unit String)
    (m : AgentEmail) (ms : List AgentEmail) :
    processProjectEmails (Except.ok b) g s d bl wr we (m :: ms)
      = (if (runLoop g s d bl (m :: ms)).uids.isEmpty
         then ((runLoop g s d bl (m :: ms)).fx, Except.ok 0)
         else rulesPhase (runLoop g s d bl (m :: ms)) wr we) := rfl

theorem runLoop_facts (g : GenOracle) (s : SmtpOracle) (d bl : Option String)
    (mails : List AgentEmail) :
    countMarkSeen (runLoop g s d bl mails).fx = 0 ∧
    countWriteEpic (runLoop g s d bl mails).fx = 0 ∧
    ackUids (runLoop g s d bl mails).fx = [] ∧
    (foldTrace (runLoop g s d bl mails).fx).map (fun x => x.1) = mails.map AgentEmail.uid ∧
    chainFrom bl (foldTrace (runLoop g s d bl mails).fx) ∧
    (runLoop g s d bl mails).accEpic = chainEnd bl (foldTrace (runLoop g s d bl mails).fx) ∧
    (runLoop g s d bl mails).uids = successUids (foldTrace (runLoop g s d bl mails).fx) := by
  obtain ⟨tail, ft, hfx, hft, hms, hwe, hau, hmap, hchain, hend, huids⟩ :=
    runLoop_char g s d mails ⟨bl, none, [], []⟩
  have e1 : runLoop g s d bl mails = mails.foldl (stepEmail g s d) ⟨bl, none, [], []⟩ := rfl
  have hfx2 : (runLoop g s d bl mails).fx = tail := by rw [e1, hfx]; simp
  have huids2 : (runLoop g s d bl mails).uids = successUids ft := by rw [e1, huids]; simp
  have hft2 : foldTrace (runLoop g s d bl mails).fx = ft := by rw [hfx2, hft]
  refine ⟨?_, ?_, ?_, ?_, ?_, ?_, ?_⟩
  · rw [hfx2, hms]
  · rw [hfx2, hwe]
  · rw [hfx2, hau]
  · rw [hft2, hmap]
  · rw [hft2]; exact hchain
  · rw [hft2, e1]; exact hend
  · rw [hft2, huids2]

/-! ## Helper lemmas about the breaker and the retry loop -/

theorem cbCall_open_rejects (st : CBState) (now : Nat) (out : CallOutcome)
    (h1 : st.status = CBStatus.opened) (h2 : now < st.openedAt + st.resetTimeout) :
    cbCall st now out = (CallResult.circuitOpenError, st, false) := by
  simp [cbCall, h1, h2]

theorem cbFailSeq (times : List Nat) :
    ∀ st : CBState, st.status = CBStatus.closed →
      st.failCounter + times.length = st.failMax →
      times ≠ [] →
      ((cbCallSeq st (times.map (fun t => (t, CallOutcome.failure)))).status
          = CBStatus.opened ∧
       (cbCallSeq st (times.map (fun t => (t, CallOutcome.failure)))).failCounter
          = st.failMax ∧
       (cbCallSeq st (times.map (fun t => (t, CallOutcome.failure)))).failMax
          = st.failMax ∧
       (cbCallSeq st (times.map (fun t => (t, CallOutcome.failure)))).resetTimeout
          = st.resetTimeout) := by
  induction times with
  | nil => intro st h1 h2 h3; exact absurd rfl h3
  | cons t ts ih =>
    intro st h1 h2 h3
    by_cases hts : ts = []
    · subst hts
      simp only [List.length_cons, List.length_nil] at h2
      have hle : st.failMax ≤ st.failCounter + 1 := by omega
      refine ⟨by simp [cbCallSeq, cbCall, h1, hle], ?_,
        by simp [cbCallSeq, cbCall, h1, hle], by simp [cbCallSeq, cbCall, h1, hle]⟩
      simp [cbCallSeq, cbCall, h1, hle]
      omega
    · have hlen : 0 < ts.length := List.length_pos.mpr hts
      simp only [List.length_cons] at h2
      have hlt : ¬ st.failMax ≤ st.failCounter + 1 := by omega
      have hstep : cbCallSeq st ((t :: ts).map (fun x => (x, CallOutcome.failure)))
          = cbCallSeq { st with failCounter := st.failCounter + 1 }
              (ts.map (fun x => (x, CallOutcome.failure))) := by
        simp [cbCallSeq, cbCall, h1, hlt]
      rw [hstep]
      have h2' : ({ st with failCounter := st.failCounter + 1 } : CBState).failCounter
          + ts.length = ({ st with failCounter := st.failCounter + 1 } : CBState).failMax := by
        simp
        omega
      have hrec := ih { st with failCounter := st.failCounter + 1 } h1 h2' hts
      simpa using hrec

theorem retryExec_le (retryable : LLMError → Bool) (outcomes : Nat → Except LLMError String) :
    ∀ (fuel i : Nat), (retryExec retryable outcomes fuel i).1 ≤ i + fuel := by
  intro fuel
  induction fuel with
  | zero => intro i; simp [retryExec]
  | succ n ih =>
    intro i
    cases ho : outcomes i with
    | ok t => simp [retryExec, ho]
    | error e =>
      by_cases hc : (retryable e && (n != 0)) = true
      · simp only [retryExec, ho, hc, if_true]
        have := ih (i + 1)
        omega
      · rw [Bool.not_eq_true] at hc
        simp [retryExec, ho, hc]

theorem retryExec_exhausts (retryable : LLMError → Bool)
    (outcomes : Nat → Except LLMError String)
    (h : ∀ j, ∃ e, outcomes j = Except.error e ∧ retryable e = true) :
    ∀ (fuel i : Nat), (retryExec retryable outcomes fuel i).1 = i + fuel := by
  intro fuel
  induction fuel with
  | zero => intro i; simp [retryExec]
  | succ n ih =>
    intro i
    obtain ⟨e, he, hr⟩ := h i
    by_cases hn : n = 0
    · subst hn
      simp [retryExec, he, hr]
    · have hc : (retryable e && (n != 0)) = true := by simp [hr, hn]
      simp only [retryExec, he, hc, if_true]
      have := ih (i + 1)
      omega

/-! ## The claims -/

/-- Claim C1, counterexample: one input email whose fold succeeds but
returns the empty string.  Exactly one email folds successfully (M = 1),
yet `write_epic` is invoked zero times — not once as the claim demands —
while `mark_as_seen` is still invoked for the email, because the source
guards the commit with the Python truthiness of `accumulated_epic`
(main.py line 206) and an empty accumulated epic is falsy. -/
theorem C1_counterexample :
    (runLoop (fun _ _ _ => Except.ok "") (fun _ _ => Except.ok ()) none none
      [⟨"u1", "ProjectX", "subj", "body", none⟩]).uids.length = 1 ∧
    ¬ specClaimC1
        (processProjectEmails (Except.ok "bucket") (fun _ _ _ => Except.ok "")
          (fun _ _ => Except.ok ()) none none (Except.ok ()) (Except.ok "key")
          [⟨"u1", "ProjectX", "subj", "body", none⟩]).1
        1 := by
  refine ⟨by decide, ?_⟩
  unfold specClaimC1
  decide

/-- Claim C1 (amended): in a run whose storage calls succeed, the commit
`write_epic` is invoked exactly once when at least one email folded
successfully and the final accumulated epic is truthy (non-empty), and zero
times otherwise — in particular zero times when no email succeeded; the
acknowledgment `mark_as_seen` is invoked exactly once per successfully
folded email, in order, and never for a failed one. -/
theorem C1_commit_once_ack_per_success (g : GenOracle) (s : SmtpOracle) (b k : String)
    (d bl : Option String) (mails : List AgentEmail) :
    countWriteEpic
        (processProjectEmails (Except.ok b) g s d bl (Except.ok ()) (Except.ok k) mails).1
      = (if (runLoop g s d bl mails).uids ≠ [] ∧ otruthy (runLoop g s d bl mails).accEpic = true
         then 1 else 0) ∧
    ackUids (processProjectEmails (Except.ok b) g s d bl (Except.ok ()) (Except.ok k) mails).1
      = (runLoop g s d bl mails).uids ∧
    (runLoop g s d bl mails).uids = successUids (foldTrace (runLoop g s d bl mails).fx) := by
  obtain ⟨hms, hwe, hau, hmap, hchain, hend, huids⟩ := runLoop_facts g s d bl mails
  cases mails with
  | nil =>
    refine ⟨?_, ?_, ?_⟩ <;>
      simp [processProjectEmails, runLoop, countWriteEpic, ackUids, successUids, foldTrace]
  | cons m ms =>
    rw [process_cons_eq]
    by_cases he : (runLoop g s d bl (m :: ms)).uids.isEmpty = true
    · rw [if_pos he]
      have hnil : (runLoop g s d bl (m :: ms)).uids = [] := by simpa using he
      refine ⟨?_, ?_, ?_⟩
      · show countWriteEpic (runLoop g s d bl (m :: ms)).fx = _
        rw [hwe, hnil]
        simp
      · show ackUids (runLoop g s d bl (m :: ms)).fx = _
        rw [hau, hnil]
      · exact huids
    · rw [if_neg he]
      have hne : (runLoop g s d bl (m :: ms)).uids ≠ [] := by simpa using he
      obtain ⟨c1, c2⟩ := rulesPhase_ok (runLoop g s d bl (m :: ms)) k hwe hau
      refine ⟨?_, ?_, ?_⟩
      · rw [c1]
        simp [hne]
      · exact c2
      · exact huids

/-- Claim C2, counterexample: with one email whose fold succeeds but
returns the empty string, the run completes normally, the email is
acknowledged, yet `write_epic` was never invoked — so the acknowledgment
did not happen after a successful commit that included the email, contrary
to the claim. -/
theorem C2_counterexample :
    (processProjectEmails (Except.ok "bucket") (fun _ _ _ => Except.ok "")
        (fun _ _ => Except.ok ()) none none (Except.ok ()) (Except.ok "key")
        [⟨"u2", "ProjectY", "subj", "body", none⟩]).2 = Except.ok 1 ∧
    countMarkSeen (processProjectEmails (Except.ok "bucket") (fun _ _ _ => Except.ok "")
        (fun _ _ => Except.ok ()) none none (Except.ok ()) (Except.ok "key")
        [⟨"u2", "ProjectY", "subj", "body", none⟩]).1 = 1 ∧
    ¬ specClaimC2
        (processProjectEmails (Except.ok "bucket") (fun _ _ _ => Except.ok "")
          (fun _ _ => Except.ok ()) none none (Except.ok ()) (Except.ok "key")
          [⟨"u2", "ProjectY", "subj", "body", none⟩]).1
        (processProjectEmails (Except.ok "bucket") (fun _ _ _ => Except.ok "")
          (fun _ _ => Except.ok ()) none none (Except.ok ()) (Except.ok "key")
          [⟨"u2", "ProjectY", "subj", "body", none⟩]).2 := by
  refine ⟨rfl, by decide, ?_⟩
  unfold specClaimC2
  decide

/-- Claim C2 (amended): the commit is invoked at most once per partition
run; when a commit occurred, every acknowledgment comes strictly after it;
and whenever the run raises (including a raising `write_epic` or
`write_extension_rules`), no email is acknowledged.  However, when the
final accumulated epic is empty or no email succeeded, acknowledgments can
occur without any commit. -/
theorem C2_ack_after_commit (bres : Except Unit String) (g : GenOracle) (s : SmtpOracle)
    (d bl : Option String) (wr : Except Unit Unit) (we : Except Unit String)
    (mails : List AgentEmail) :
    countWriteEpic (processProjectEmails bres g s d bl wr we mails).1 ≤ 1 ∧
    ((processProjectEmails bres g s d bl wr we mails).2 = Except.error () →
      countMarkSeen (processProjectEmails bres g s d bl wr we mails).1 = 0) ∧
    (1 ≤ countWriteEpic (processProjectEmails bres g s d bl wr we mails).1 →
      acksOnlyAfterCommit (processProjectEmails bres g s d bl wr we mails).1 = true) := by
  obtain ⟨hms, hwe, hau, hmap, hchain, hend, huids⟩ := runLoop_facts g s d bl mails
  cases bres with
  | error e =>
    refine ⟨?_, ?_, ?_⟩ <;>
      simp [processProjectEmails, countWriteEpic, countMarkSeen, acksOnlyAfterCommit]
  | ok b =>
    cases mails with
    | nil =>
      refine ⟨?_, ?_, ?_⟩ <;>
        simp [processProjectEmails, countWriteEpic, countMarkSeen, acksOnlyAfterCommit]
    | cons m ms =>
      rw [process_cons_eq]
      by_cases he : (runLoop g s d bl (m :: ms)).uids.isEmpty = true
      · rw [if_pos he]
        refine ⟨?_, ?_, ?_⟩
        · show countWriteEpic (runLoop g s d bl (m :: ms)).fx ≤ 1
          rw [hwe]
          omega
        · intro h
          exact Except.noConfusion h
        · intro h
          have h2 : 1 ≤ countWriteEpic (runLoop g s d bl (m :: ms)).fx := h
          rw [hwe] at h2
          omega
      · rw [if_neg he]
        exact rulesPhase_char (runLoop g s d bl (m :: ms)) wr we hms hwe

/-- Claim C5: within one partition, emails are folded strictly in arrival
order — the fold trace lists exactly the input uids in order; the first
fold receives the baseline epic loaded from storage, and each subsequent
fold receives the accumulated epic of the most recent successful fold (the
trace chains from the baseline); a fold failure only excludes that email
from the processed uids and processing continues with the next email —
every email is folded and the processed uids are exactly the successfully
folded ones. -/
theorem C5_fold_order_and_continue (g : GenOracle) (s : SmtpOracle) (d bl : Option String)
    (mails : List AgentEmail) :
    (foldTrace (runLoop g s d bl mails).fx).map (fun x => x.1) = mails.map AgentEmail.uid ∧
    chainFrom bl (foldTrace (runLoop g s d bl mails).fx) ∧
    (runLoop g s d bl mails).uids = successUids (foldTrace (runLoop g s d bl mails).fx) := by
  obtain ⟨h1, h2, h3, hmap, hchain, hend, huids⟩ := runLoop_facts g s d bl mails
  exact ⟨hmap, hchain, huids⟩

/-- Claim C10 (code bug): evaluation of the orchestrator at the failing
input.  The claim describes the reply block of main.py lines 150-184 — a
reply-send failure is caught and logged and does not prevent
acknowledgment — but that path cannot execute: the source `AgentEmail`
dataclass has no `sender` attribute (while email_client.py tests import a
`_extract_sender` the module does not define and assert `parsed.sender`),
so `mail.sender` at line 153 raises `AttributeError` on every successfully
folded email, caught by the outer handler at line 186 after the uid
append; `send_reply` is never invoked.  This theorem evaluates the code at
such an input: the fold succeeds, the per-email processing then raises
after the uid append, and the email is nevertheless committed and
acknowledged. -/
theorem C10_sender_attribute_error_behavior :
    (processProjectEmails (Except.ok "b") (fun _ _ _ => Except.ok "Epic")
        (fun _ _ => Except.error ()) none none (Except.ok ()) (Except.ok "k")
        [⟨"u5", "P5", "s", "b", none⟩]).2 = Except.ok 1 ∧
    countWriteEpic (processProjectEmails (Except.ok "b") (fun _ _ _ => Except.ok "Epic")
        (fun _ _ => Except.error ()) none none (Except.ok ()) (Except.ok "k")
        [⟨"u5", "P5", "s", "b", none⟩]).1 = 1 ∧
    ackUids (processProjectEmails (Except.ok "b") (fun _ _ _ => Except.ok "Epic")
        (fun _ _ => Except.error ()) none none (Except.ok ()) (Except.ok "k")
        [⟨"u5", "P5", "s", "b", none⟩]).1 = ["u5"] := by
  exact ⟨rfl, by decide, by decide⟩

/-- Claim C3, counterexample: when the primary is configured but its call
raises, and the secondary is unconfigured, the facade raises the
not-configured error (the RuntimeError of llm_client.py line 331, "Both LLM
backends are unconfigured") even though the primary IS configured, and the
secondary is not attempted even though the primary raised — contradicting
both the attempted-iff condition and the not-configured-only-when-neither-
configured condition of the claim. -/
theorem C3_counterexample :
    llmGenerate true BackendOutcome.failure false BackendOutcome.failure
      = (FacadeResult.notConfigured, false) ∧
    ¬ specClaimC3At true BackendOutcome.failure false BackendOutcome.failure := by
  refine ⟨rfl, ?_⟩
  unfold specClaimC3At
  decide

/-- Claim C3 (amended): the secondary backend is attempted iff it is
configured and the primary is unconfigured or its call did not succeed
(raised or circuit-open); an all-backends-unavailable error is raised iff
the secondary was attempted and did not succeed; and the not-configured
error is raised iff the secondary is unconfigured while the primary is
unconfigured or its call did not succeed — so it can be raised even though
the primary is configured. -/
theorem C3_fallback_conditions (cgConf : Bool) (cgOut : BackendOutcome)
    (cpConf : Bool) (cpOut : BackendOutcome) :
    ((llmGenerate cgConf cgOut cpConf cpOut).2
      = (cpConf && (!cgConf || !cgOut.isSuccess))) ∧
    ((llmGenerate cgConf cgOut cpConf cpOut).1.isAllUnavailable
      = (cpConf && (!cgConf || !cgOut.isSuccess) && !cpOut.isSuccess)) ∧
    (((llmGenerate cgConf cgOut cpConf cpOut).1 = FacadeResult.notConfigured)
      ↔ (!cpConf && (!cgConf || !cgOut.isSuccess)) = true) := by
  cases cgConf <;> cases cpConf <;> cases cgOut <;> cases cpOut <;>
    simp [llmGenerate, BackendOutcome.isSuccess, FacadeResult.isAllUnavailable]

/-- Witness for C3 at a concrete input: primary unconfigured, secondary
configured and succeeding — the secondary is attempted. -/
theorem C3_witness :
    (llmGenerate false (BackendOutcome.success "t") true (BackendOutcome.success "u")).2
      = true := by
  have h := C3_fallback_conditions false (BackendOutcome.success "t") true
    (BackendOutcome.success "u")
  rw [h.1]
  rfl

/-- Claim C4 (spec-modelled: the pybreaker state machine per spec §3/§4.2):
starting from a fresh CLOSED breaker with the configured fail_max and
reset_timeout, after exactly fail_max consecutive failed call invocations
the status is OPEN with the failure counter at fail_max, and any call made
while OPEN strictly before reset_timeout has elapsed returns the
circuit-open error without invoking the wrapped callable (the result is
independent of the would-be outcome and the invoked flag is false) and
leaves the breaker unchanged. -/
theorem C4_opens_after_fail_max (fm rt : Nat) (times : List Nat)
    (h1 : 1 ≤ fm) (h2 : times.length = fm) :
    (cbCallSeq ⟨fm, rt, 0, CBStatus.closed, 0⟩
        (times.map (fun t => (t, CallOutcome.failure)))).status = CBStatus.opened ∧
    (cbCallSeq ⟨fm, rt, 0, CBStatus.closed, 0⟩
        (times.map (fun t => (t, CallOutcome.failure)))).failCounter = fm ∧
    (∀ now out, now < (cbCallSeq ⟨fm, rt, 0, CBStatus.closed, 0⟩
          (times.map (fun t => (t, CallOutcome.failure)))).openedAt + rt →
      cbCall (cbCallSeq ⟨fm, rt, 0, CBStatus.closed, 0⟩
          (times.map (fun t => (t, CallOutcome.failure)))) now out
        = (CallResult.circuitOpenError,
           cbCallSeq ⟨fm, rt, 0, CBStatus.closed, 0⟩
             (times.map (fun t => (t, CallOutcome.failure))), false)) := by
  have hne : times ≠ [] := by
    intro hcon
    rw [hcon] at h2
    simp at h2
    omega
  obtain ⟨hs, hc, hfm, hrt⟩ := cbFailSeq times ⟨fm, rt, 0, CBStatus.closed, 0⟩ rfl
    (by simpa using h2) hne
  refine ⟨hs, hc, ?_⟩
  intro now out hlt
  apply cbCall_open_rejects _ _ _ hs
  rw [hrt]
  exact hlt

/-- Witness for C4: fail_max 2, reset_timeout 10, two failed calls at times
3 and 5 open the circuit, and a call at time 7 is rejected without invoking
the callable. -/
theorem C4_witness :
    (cbCallSeq ⟨2, 10, 0, CBStatus.closed, 0⟩
        [(3, CallOutcome.failure), (5, CallOutcome.failure)]).status = CBStatus.opened ∧
    cbCall (cbCallSeq ⟨2, 10, 0, CBStatus.closed, 0⟩
        [(3, CallOutcome.failure), (5, CallOutcome.failure)]) 7 CallOutcome.failure
      = (CallResult.circuitOpenError,
         cbCallSeq ⟨2, 10, 0, CBStatus.closed, 0⟩
           [(3, CallOutcome.failure), (5, CallOutcome.failure)], false) := by
  have h := C4_opens_after_fail_max 2 10 [3, 5] (by decide) (by decide)
  exact ⟨h.1, h.2.2 7 CallOutcome.failure (by decide)⟩

/-- Claim C6 (spec-modelled: the tenacity retry loop and exponential wait
per spec §4.1; the exception filters are from the source): a permanent
(never-retried) error on the first underlying call yields exactly one
attempt; the number of attempts never exceeds the configured maximum; a
run of transient errors exhausts exactly the configured maximum number of
attempts; and the inter-attempt waits are monotonically non-decreasing and
bounded within the configured wait window. -/
theorem C6_retry_bounds (maxAttempts wmin wmax : Nat) (retryable : LLMError → Bool)
    (outcomes : Nat → Except LLMError String)
    (hA : 1 ≤ maxAttempts) (hW : wmin ≤ wmax) :
    (∀ e, outcomes 0 = Except.error e → retryable e = false →
      (retryGenerate maxAttempts retryable outcomes).1 = 1) ∧
    (retryGenerate maxAttempts retryable outcomes).1 ≤ maxAttempts ∧
    ((∀ j, ∃ e, outcomes j = Except.error e ∧ retryable e = true) →
      (retryGenerate maxAttempts retryable outcomes).1 = maxAttempts) ∧
    (∀ j k, j ≤ k → waitExp wmin wmax j ≤ waitExp wmin wmax k) ∧
    (∀ j, wmin ≤ waitExp wmin wmax j ∧ waitExp wmin wmax j ≤ wmax) := by
  obtain ⟨n, rfl⟩ : ∃ n, maxAttempts = n + 1 := ⟨maxAttempts - 1, by omega⟩
  refine ⟨?_, ?_, ?_, ?_, ?_⟩
  · intro e he hr
    simp [retryGenerate, retryExec, he, hr]
  · have := retryExec_le retryable outcomes (n + 1) 0
    simpa [retryGenerate] using this
  · intro h
    have := retryExec_exhausts retryable outcomes h (n + 1) 0
    simpa [retryGenerate] using this
  · intro j k hjk
    have hpow : 2 ^ j ≤ 2 ^ k := Nat.pow_le_pow_right (by omega) hjk
    exact max_le_max (le_refl wmin) (min_le_min hpow (le_refl wmax))
  · intro j
    exact ⟨le_max_left _ _, max_le hW (min_le_right _ _)⟩

/-- Witness for C6: with three configured attempts, a permanent 4xx error
(ValueError) gets exactly one attempt, persistent transient 5xx errors
(IOError) exhaust all three, and the waits for the window [1, 8] are
ordered and bounded. -/
theorem C6_witness :
    (retryGenerate 3 chatgptRetryable (fun _ => Except.error LLMError.valueError)).1 = 1 ∧
    (retryGenerate 3 chatgptRetryable (fun _ => Except.error LLMError.ioError)).1 = 3 ∧
    waitExp 1 8 1 ≤ waitExp 1 8 2 ∧ 1 ≤ waitExp 1 8 2 ∧ waitExp 1 8 2 ≤ 8 := by
  have h1 := C6_retry_bounds 3 1 8 chatgptRetryable
    (fun _ => Except.error LLMError.valueError) (by decide) (by decide)
  have h2 := C6_retry_bounds 3 1 8 chatgptRetryable
    (fun _ => Except.error LLMError.ioError) (by decide) (by decide)
  refine ⟨h1.1 LLMError.valueError rfl rfl, ?_, h2.2.2.2.1 1 2 (by decide),
    (h2.2.2.2.2 2).1, (h2.2.2.2.2 2).2⟩
  exact h2.2.2.1 (fun i => ⟨LLMError.ioError, rfl, rfl⟩)

/-- Claim C7 (source wiring over the spec-modelled layers): one backend
generate call changes the breaker by exactly one outcome regardless of how
many retry attempts occurred inside: from a CLOSED breaker, when the whole
retry sequence finally succeeds the failure counter is reset to 0, and when
it finally raises — an exhausted transient sequence and a permanent
non-retried error alike — the failure counter grows by exactly one. -/
theorem C7_one_breaker_outcome (retryable : LLMError → Bool) (maxAttempts : Nat)
    (st : CBState) (now : Nat) (outcomes : Nat → Except LLMError String)
    (h : st.status = CBStatus.closed) :
    (backendGenerate true retryable maxAttempts st now outcomes).2.1.failCounter
      = (match (retryGenerate maxAttempts retryable outcomes).2 with
         | Except.ok _ => 0
         | Except.error _ => st.failCounter + 1) := by
  unfold backendGenerate
  cases hr : (retryGenerate maxAttempts retryable outcomes).2 with
  | ok t => simp [hr, cbCall, h]
  | error e =>
    simp only [hr, cbCall, h, if_true]
    by_cases hle : st.failMax ≤ st.failCounter + 1 <;> simp [cbCall, h, hle]

/-- Witness for C7: three exhausted transient attempts count as exactly one
breaker failure — starting the breaker at counter 1 ends it at counter 2,
not 4. -/
theorem C7_witness :
    (backendGenerate true chatgptRetryable 3 ⟨3, 60, 1, CBStatus.closed, 0⟩ 0
      (fun _ => Except.error LLMError.ioError)).2.1.failCounter = 2 := by
  have h := C7_one_breaker_outcome chatgptRetryable 3 ⟨3, 60, 1, CBStatus.closed, 0⟩ 0
    (fun _ => Except.error LLMError.ioError) rfl
  rw [h]
  rfl

/-- Claim C8, counterexample: an unconfigured backend raises the
configuration error before the breaker is consulted (llm_client.py lines
116-117 precede the cb.call on line 136), so the breaker's failure counter
stays at 0 instead of growing to 1 as the claim demands. -/
theorem C8_counterexample :
    (backendGenerate false chatgptRetryable 3 ⟨3, 60, 0, CBStatus.closed, 0⟩ 0
        (fun _ => Except.error LLMError.ioError)).2.1.failCounter = 0 ∧
    ¬ specClaimC8At chatgptRetryable 3 ⟨3, 60, 0, CBStatus.closed, 0⟩ 0
        (fun _ => Except.error LLMError.ioError) := by
  refine ⟨rfl, ?_⟩
  unfold specClaimC8At
  decide

/-- Claim C8 (amended): when the backend is unconfigured, generate fails
immediately with the configuration error, the retry layer issues zero
attempts, and the breaker state is completely unchanged — the call is NOT
recorded by the breaker as a failed call. -/
theorem C8_config_error_skips_everything (retryable : LLMError → Bool) (maxAttempts : Nat)
    (st : CBState) (now : Nat) (outcomes : Nat → Except LLMError String) :
    backendGenerate false retryable maxAttempts st now outcomes
      = (CallResult.configError, st, 0) := rfl

/-- Claim C9: the ChatGPT backend performs no emptiness check — an HTTP
response with status below 400 whose content is the empty string is
returned as the empty string rather than raising — while the Copilot
session raises on an empty or absent response and therefore never returns
the empty string; consequently, at the orchestrator, a run whose single
fold succeeds with the empty string skips the commit while still
acknowledging the email. -/
theorem C9_empty_response_asymmetry :
    chatgptHttpCall 200 "" = Except.ok "" ∧
    (∀ responseText, isEmptyOk (copilotSessionResult responseText) = false) ∧
    countWriteEpic (processProjectEmails (Except.ok "bucket")
        (fun _ _ _ => (chatgptHttpCall 200 "").mapError (fun _ => ()))
        (fun _ _ => Except.ok ()) none none (Except.ok ()) (Except.ok "key")
        [⟨"u3", "ProjectZ", "subj", "body", none⟩]).1 = 0 ∧
    countMarkSeen (processProjectEmails (Except.ok "bucket")
        (fun _ _ _ => (chatgptHttpCall 200 "").mapError (fun _ => ()))
        (fun _ _ => Except.ok ()) none none (Except.ok ()) (Except.ok "key")
        [⟨"u3", "ProjectZ", "subj", "body", none⟩]).1 = 1 := by
  refine ⟨rfl, ?_, by decide, by decide⟩
  intro r
  cases r with
  | none => rfl
  | some c =>
    by_cases hc : c = ""
    · simp [copilotSessionResult, isEmptyOk, hc]
    · simp [copilotSessionResult, isEmptyOk, hc]

/-- Witness for C2 at a concrete input: the commit write raises, so the
successfully folded email is not acknowledged; and since a commit was
invoked, no acknowledgment precedes it. -/
theorem C2_witness :
    countMarkSeen (processProjectEmails (Except.ok "b") (fun _ _ _ => Except.ok "Epic")
        (fun _ _ => Except.ok ()) none none (Except.ok ()) (Except.error ())
        [⟨"u4", "P4", "s", "b", none⟩]).1 = 0 ∧
    acksOnlyAfterCommit (processProjectEmails (Except.ok "b") (fun _ _ _ => Except.ok "Epic")
        (fun _ _ => Except.ok ()) none none (Except.ok ()) (Except.error ())
        [⟨"u4", "P4", "s", "b", none⟩]).1 = true := by
  have h := C2_ack_after_commit (Except.ok "b") (fun _ _ _ => Except.ok "Epic")
    (fun _ _ => Except.ok ()) none none (Except.ok ()) (Except.error ())
    [⟨"u4", "P4", "s", "b", none⟩]
  exact ⟨h.2.1 rfl, h.2.2 (by decide)⟩

end AgentTriage
